import Mathlib

/-!
# Barcode music player: OAuth handshake and token lifecycle

A shallow embedding of the Go sources `auth/oauth.go`, `spotify/client.go`,
`config/config.go` and `main.go` (function `authenticateSpotify`), followed
by theorems about the embedded functions.

Modelling conventions

* Go `string` values are Lean `String`s.
* A Go `error` is a value of `Error`; `nil` is `none` in `Option Error`.
  Each `fmt.Errorf` call keeps its format string and its arguments.
* The unbuffered channel `done` is the list of values whose senders are
  blocked on it, oldest first.  A send appends, a receive removes the head.
* `time.Time` is an instant counted in nanoseconds since the Unix epoch,
  `time.Duration` a signed 64-bit count of nanoseconds.
* Calls into the Go standard library and the operating system whose result
  depends on the outside world are arguments of the embedded functions.
-/

namespace BarcodeMusicPlayer

/-! ## Errors -/

/-- An argument handed to a `fmt.Errorf` format string. -/
inductive Arg where
  | str (s : String)
  | int (n : Int)
  | dur (d : Int)
  deriving DecidableEq, Repr

/-- A Go `error` value. -/
inductive Error where
  /-- an error produced by the standard library or the operating system -/
  | external (msg : String)
  /-- the value of `fmt.Errorf(format, args...)` without a wrapped error -/
  | errorf (format : String) (args : List Arg)
  /-- the value of `fmt.Errorf(format, inner)` where the format ends in `%w` -/
  | wrap (format : String) (inner : Error)
  deriving DecidableEq, Repr

/-! ## `net/url`: query values -/

/-- The Go type `url.Values` (`map[string][]string`): each key occurs at most
once in the list built by `Values.Add` and `Values.Set`; lookups take the
first entry of a key. -/
abbrev Values := List (String × List String)

/-- The map index expression `v[key]`: the values of a key, `nil` when the key is absent. -/
def Values.index (v : Values) (key : String) : List String :=
  match v with
  | [] => []
  | (k, vs) :: rest => if k = key then vs else Values.index rest key

/-- Has reports whether a key is set, as `Values.Has` does. -/
def Values.Has (v : Values) (key : String) : Bool :=
  match v with
  | [] => false
  | (k, _) :: rest => if k = key then true else Values.Has rest key

/-- Get returns the first value of the key, and the empty string when there is none. -/
def Values.Get (v : Values) (key : String) : String :=
  match Values.index v key with
  | [] => ""
  | x :: _ => x

/-- Add appends the value to the values of the key. -/
def Values.Add (v : Values) (key value : String) : Values :=
  match v with
  | [] => [(key, [value])]
  | (k, vs) :: rest =>
    if k = key then (k, vs ++ [value]) :: rest else (k, vs) :: Values.Add rest key value

/-- Set replaces the values of the key by the single value. -/
def Values.Set (v : Values) (key value : String) : Values :=
  match v with
  | [] => [(key, [value])]
  | (k, vs) :: rest =>
    if k = key then (k, [value]) :: rest else (k, vs) :: Values.Set rest key value

/-! ## `auth/oauth.go` -/

/-- The part of `*http.Request` that `handleCallback` reads: `r.URL.Query()`. -/
structure Request where
  Query : Values
  deriving DecidableEq, Repr

/-- The page written to the `http.ResponseWriter`. -/
inductive Page where
  /-- the "Authorization Error" page showing the error parameter -/
  | authorizationError (errorParam : String)
  /-- the "Authorization Error" page saying that no code was received -/
  | noCodeReceived
  /-- the "Authorization Successful!" page -/
  | success
  /-- the "Waiting for authorization..." page of the root handler -/
  | waiting
  deriving DecidableEq, Repr

/-- The `*http.Server` of a handler: its address and whether its listener is open. -/
structure Server where
  Addr : String
  listening : Bool
  deriving DecidableEq, Repr

/-- The struct `OAuthHandler`. -/
structure OAuthHandler where
  server : Option Server
  code : String
  err : Option Error
  done : List Bool
  deriving DecidableEq, Repr

/-- NewOAuthHandler ignores its argument and makes the channel. -/
def NewOAuthHandler (_redirectURI : String) : OAuthHandler :=
  { server := none, code := "", err := none, done := [] }

/-- StartServer builds the server on `":" + port` and serves in a goroutine.
`listenErr` is the error with which `ListenAndServe` comes back on its own
(`none` while it keeps serving); `http.ErrServerClosed` is not reported.
The function itself always returns `nil`. -/
def OAuthHandler.StartServer (h : OAuthHandler) (port : String)
    (listenErr : Option Error) : OAuthHandler × Option Error :=
  let h1 := { h with server := some { Addr := ":" ++ port, listening := listenErr.isNone } }
  match listenErr with
  | some e => ({ h1 with err := some e, done := h1.done ++ [true] }, none)
  | none => (h1, none)

/-- The handler of `/callback`.  The last statement of every branch is the
send `h.done <- true`, which blocks the serving goroutine until received. -/
def OAuthHandler.handleCallback (h : OAuthHandler) (r : Request) : OAuthHandler × Page :=
  let code := r.Query.Get "code"
  let errorParam := r.Query.Get "error"
  if errorParam ≠ "" then
    ({ h with err := some (Error.errorf "authorization error: %s" [Arg.str errorParam]),
              done := h.done ++ [true] },
     Page.authorizationError errorParam)
  else if code = "" then
    ({ h with err := some (Error.errorf "no authorization code received" []),
              done := h.done ++ [true] },
     Page.noCodeReceived)
  else
    ({ h with code := code, done := h.done ++ [true] }, Page.success)

/-- The handler of `/`: a static page, the handler is untouched. -/
def OAuthHandler.handleRoot (h : OAuthHandler) (_r : Request) : OAuthHandler × Page :=
  (h, Page.waiting)

/-- The method `shutdown`: `Server.Shutdown` closes the listener; its result is dropped. -/
def OAuthHandler.shutdown (h : OAuthHandler) : OAuthHandler :=
  match h.server with
  | some s => { h with server := some { s with listening := false } }
  | none => h

/-- WaitForCode is the `select` over `h.done` and `time.After(timeout)`.
`h` is the handler at the moment the `select` is resolved.  The receive
case can be taken only when a sender is blocked on `done`; `timerWins`
says that the timer case has been picked although a sender was blocked.
With no sender the timer case is taken once the timeout has elapsed. -/
def OAuthHandler.WaitForCode (h : OAuthHandler) (timeout : Int) (timerWins : Bool) :
    (String × Option Error) × OAuthHandler :=
  match h.done, timerWins with
  | _ :: rest, false =>
    let h1 := OAuthHandler.shutdown { h with done := rest }
    match h1.err with
    | some e => (("", some e), h1)
    | none => ((h1.code, none), h1)
  | _, _ =>
    let h1 := OAuthHandler.shutdown h
    (("", some (Error.errorf "authorization timeout after %v" [Arg.dur timeout])), h1)

/-! ## `net/url`: query escaping and encoding -/

/-- The UTF-8 bytes of a character: a Go string is its sequence of bytes. -/
def utf8 (c : Char) : List Nat :=
  let v := c.toNat
  if v < 0x80 then [v]
  else if v < 0x800 then [0xC0 + v / 0x40, 0x80 + v % 0x40]
  else if v < 0x10000 then [0xE0 + v / 0x1000, 0x80 + v / 0x40 % 0x40, 0x80 + v % 0x40]
  else [0xF0 + v / 0x40000, 0x80 + v / 0x1000 % 0x40, 0x80 + v / 0x40 % 0x40, 0x80 + v % 0x40]

/-- The bytes of a string. -/
def bytes (s : String) : List Nat := s.toList.flatMap utf8

/-- The function `shouldEscape(c, encodeQueryComponent)` of `net/url`: letters,
digits and `-`, `_`, `.`, `~` are kept, every other byte is escaped. -/
def shouldEscape (c : Nat) : Bool :=
  if (97 ≤ c ∧ c ≤ 122) ∨ (65 ≤ c ∧ c ≤ 90) ∨ (48 ≤ c ∧ c ≤ 57) then false
  else if c = 45 ∨ c = 95 ∨ c = 46 ∨ c = 126 then false
  else true

/-- The digit table `upperhex` of `net/url`. -/
def upperhex (n : Nat) : Char := "0123456789ABCDEF".toList.getD n '0'

/-- What `escape` writes for one byte in query-component mode: a space
becomes `+`, another escaped byte becomes `%XX`. -/
def escapeByte (c : Nat) : List Char :=
  if shouldEscape c then
    if c = 32 then ['+'] else ['%', upperhex (c / 16), upperhex (c % 16)]
  else [Char.ofNat c]

/-- The function `url.QueryEscape`. -/
def QueryEscape (s : String) : String := String.mk ((bytes s).flatMap escapeByte)

/-- The order of Go strings: bytewise lexicographic. -/
def bytesLess : List Nat → List Nat → Bool
  | [], [] => false
  | [], _ :: _ => true
  | _ :: _, [] => false
  | a :: as, b :: bs => if a < b then true else if b < a then false else bytesLess as bs

/-- Insertion of a key into a sorted list of keys. -/
def insertKey (k : String) : List String → List String
  | [] => [k]
  | x :: xs => if bytesLess (bytes x) (bytes k) then x :: insertKey k xs else k :: x :: xs

/-- The call `slices.Sort(keys)`. -/
def sortKeys : List String → List String
  | [] => []
  | k :: ks => insertKey k (sortKeys ks)

/-- Encode writes `key=value` for every value of every key, the keys in
sorted order, joined by `&`, as `Values.Encode` does. -/
def Values.Encode (v : Values) : String :=
  "&".intercalate ((sortKeys (v.map Prod.fst)).flatMap fun k =>
    (Values.index v k).map fun x => QueryEscape k ++ "=" ++ QueryEscape x)

/-! ## `time` -/

/-- An instant, in nanoseconds since the Unix epoch (`time.Time` without its
location and monotonic reading). -/
abbrev Time := Int

/-- The type `time.Duration`: nanoseconds as a signed 64-bit integer. -/
abbrev Duration := Int

/-- The value of a mathematical integer stored in an `int64`. -/
def wrapInt64 (x : Int) : Int := (x + 2 ^ 63) % 2 ^ 64 - 2 ^ 63

/-- The constant `time.Second`. -/
def Second : Duration := 1000000000

/-- The constant `time.Minute`. -/
def Minute : Duration := 60 * Second

/-- The method `Time.Add`. -/
def Time.Add (t : Time) (d : Duration) : Time := t + d

/-- The method `Time.After`: `t.After(u)` reports whether `t` is strictly later than `u`. -/
def Time.After (t u : Time) : Bool := decide (u < t)

/-- The zero value of `time.Time`, January 1 of year 1, 00:00 UTC. -/
def zeroTime : Time := -62135596800 * 1000000000

/-! ## `spotify/client.go` -/

/-- The contents of a file or of a response body. -/
abbrev Bytes := List Nat

/-- The file system: the contents of the file at each path, if there is one. -/
abbrev FS := String → Option Bytes

/-- The struct `Client` (the `HTTPClient` field is the transport, see `ExchangeCodeForToken`). -/
structure Client where
  ClientID : String
  ClientSecret : String
  RedirectURI : String
  AccessToken : String
  RefreshToken : String
  ExpiresAt : Time
  deriving DecidableEq, Repr

/-- The struct `TokenResponse`; `ExpiresIn` is a Go `int`. -/
structure TokenResponse where
  AccessToken : String
  TokenType : String
  ExpiresIn : Int
  RefreshToken : String
  Scope : String
  deriving DecidableEq, Repr

/-- The struct `StoredToken`. -/
structure StoredToken where
  AccessToken : String
  RefreshToken : String
  ExpiresAt : Time
  deriving DecidableEq, Repr

/-- The standard library and operating system as the client uses them:
the home directory reported by `os.UserHomeDir` (empty on error),
`filepath.Join`, and `encoding/json` at the two types it is used at. -/
structure Sys where
  UserHomeDir : String
  Join : String → String → String
  MarshalIndent : StoredToken → Except Error Bytes
  Unmarshal : Bytes → Except Error StoredToken
  Decode : Bytes → Except Error TokenResponse

/-- The request handed to `HTTPClient.Do`. -/
structure HTTPRequest where
  Method : String
  URL : String
  Body : String
  ContentType : String
  BasicAuth : Option (String × String)
  deriving DecidableEq, Repr

/-- The part of `*http.Response` that is read. -/
structure Response where
  StatusCode : Int
  Body : Bytes
  deriving DecidableEq, Repr

/-- NewClient sets the three configured fields; the others are zero values. -/
def NewClient (clientID clientSecret redirectURI : String) : Client :=
  { ClientID := clientID, ClientSecret := clientSecret, RedirectURI := redirectURI,
    AccessToken := "", RefreshToken := "", ExpiresAt := zeroTime }

/-- The method `getTokenFilePath`. -/
def Client.getTokenFilePath (sys : Sys) (_c : Client) : String :=
  sys.Join sys.UserHomeDir ".barcode-music-player-token.json"

/-- LoadStoredToken reads the token file at time `now`: the result is the
returned boolean and the client afterwards. -/
def Client.LoadStoredToken (sys : Sys) (c : Client) (fs : FS) (now : Time) : Bool × Client :=
  let tokenFile := c.getTokenFilePath sys
  match fs tokenFile with
  | none => (false, c)
  | some data =>
    match sys.Unmarshal data with
    | Except.error _ => (false, c)
    | Except.ok stored =>
      if (now.Add (5 * Minute)).After stored.ExpiresAt then (false, c)
      else
        (true, { c with AccessToken := stored.AccessToken,
                        RefreshToken := stored.RefreshToken,
                        ExpiresAt := stored.ExpiresAt })

/-- SaveToken writes the token file; `writeErr` is the result of `os.WriteFile`.
The result is the returned error and the file system afterwards (a failed
write is taken to leave the file as it was). -/
def Client.SaveToken (sys : Sys) (c : Client) (fs : FS) (writeErr : Option Error) :
    Option Error × FS :=
  let tokenFile := c.getTokenFilePath sys
  let stored : StoredToken :=
    { AccessToken := c.AccessToken, RefreshToken := c.RefreshToken, ExpiresAt := c.ExpiresAt }
  match sys.MarshalIndent stored with
  | Except.error e => (some e, fs)
  | Except.ok data =>
    match writeErr with
    | some e => (some e, fs)
    | none => (none, fun p => if p = tokenFile then some data else fs p)

/-- The method `GetAuthURL`. -/
def Client.GetAuthURL (c : Client) : String :=
  let params : Values := []
  let params := params.Add "client_id" c.ClientID
  let params := params.Add "response_type" "code"
  let params := params.Add "redirect_uri" c.RedirectURI
  let params := params.Add "scope" "user-read-playback-state user-modify-playback-state"
  "https://accounts.spotify.com/authorize?" ++ params.Encode

/-- The request that `ExchangeCodeForToken` builds (`http.NewRequest` cannot
fail on this constant method and URL). -/
def Client.tokenRequest (c : Client) (code : String) : HTTPRequest :=
  let data : Values := []
  let data := data.Set "grant_type" "authorization_code"
  let data := data.Set "code" code
  let data := data.Set "redirect_uri" c.RedirectURI
  { Method := "POST", URL := "https://accounts.spotify.com/api/token", Body := data.Encode,
    ContentType := "application/x-www-form-urlencoded",
    BasicAuth := some (c.ClientID, c.ClientSecret) }

/-- ExchangeCodeForToken: `Do` is the transport `c.HTTPClient.Do`, `now` the
reading of `time.Now()`, `writeErr` the result of `os.WriteFile` inside
`SaveToken`.  The result is the returned error, the client and the file
system afterwards.  A failure of `SaveToken` only prints a warning. -/
def Client.ExchangeCodeForToken (sys : Sys) (c : Client) (code : String)
    (Do : HTTPRequest → Except Error Response) (now : Time) (writeErr : Option Error)
    (fs : FS) : Option Error × Client × FS :=
  match Do (c.tokenRequest code) with
  | Except.error e => (some (Error.wrap "failed to exchange code for token: %w" e), c, fs)
  | Except.ok resp =>
    if resp.StatusCode ≠ 200 then
      (some (Error.errorf "token exchange failed with status: %d" [Arg.int resp.StatusCode]),
       c, fs)
    else
      match sys.Decode resp.Body with
      | Except.error e => (some (Error.wrap "failed to decode token response: %w" e), c, fs)
      | Except.ok tokenResp =>
        let c1 := { c with
          AccessToken := tokenResp.AccessToken,
          RefreshToken := tokenResp.RefreshToken,
          ExpiresAt := now.Add (wrapInt64 (tokenResp.ExpiresIn * Second)) }
        let saved := c1.SaveToken sys fs writeErr
        (none, c1, saved.2)

/-! ## `main.go`: `authenticateSpotify` -/

/-- What the authentication does to the outside world, in order. -/
inductive Effect where
  /-- the callback listener is started on a port -/
  | startServer (port : String)
  /-- the browser is asked to open a URL -/
  | openBrowser (url : String)
  /-- a request is sent to the token endpoint -/
  | tokenRequest (req : HTTPRequest)
  deriving DecidableEq, Repr

/-- The outside world during one run of `authenticateSpotify`. -/
structure Env where
  /-- reading of the clock in `LoadStoredToken` -/
  nowLoad : Time
  /-- error of `ListenAndServe`, if it fails -/
  listenErr : Option Error
  /-- error of `auth.OpenBrowser`, if it fails -/
  browserErr : Option Error
  /-- callback requests handled before the `select` of `WaitForCode` is resolved -/
  redirects : List Request
  /-- the timer case of the `select` is picked over a blocked sender -/
  timerWins : Bool
  /-- the transport to the token endpoint -/
  Do : HTTPRequest → Except Error Response
  /-- reading of the clock in `ExchangeCodeForToken` -/
  nowExchange : Time
  /-- result of `os.WriteFile` in `SaveToken` -/
  writeErr : Option Error

/-- The outcome of `authenticateSpotify`: the returned error, the global
client and the file system afterwards, and the effects in order. -/
structure AuthRun where
  err : Option Error
  client : Client
  fs : FS
  trace : List Effect

/-- The function `authenticateSpotify`, with the global `spotifyClient` as `c`. -/
def authenticateSpotify (sys : Sys) (env : Env) (c : Client) (fs : FS) : AuthRun :=
  match c.LoadStoredToken sys fs env.nowLoad with
  | (true, c1) => { err := none, client := c1, fs := fs, trace := [] }
  | (false, c1) =>
    let oauthHandler := NewOAuthHandler c1.RedirectURI
    match oauthHandler.StartServer "8080" env.listenErr with
    | (_, some e) =>
      { err := some (Error.wrap "failed to start OAuth server: %w" e), client := c1, fs := fs,
        trace := [Effect.startServer "8080"] }
    | (h1, none) =>
      let authURL := c1.GetAuthURL
      let h2 := env.redirects.foldl (fun h r => (h.handleCallback r).1) h1
      match h2.WaitForCode (2 * Minute) env.timerWins with
      | ((_, some e), _) =>
        { err := some (Error.wrap "failed to get authorization code: %w" e), client := c1,
          fs := fs, trace := [Effect.startServer "8080", Effect.openBrowser authURL] }
      | ((code, none), _) =>
        match c1.ExchangeCodeForToken sys code env.Do env.nowExchange env.writeErr fs with
        | (some e, c2, fs2) =>
          { err := some (Error.wrap "failed to exchange code for token: %w" e), client := c2,
            fs := fs2,
            trace := [Effect.startServer "8080", Effect.openBrowser authURL,
                      Effect.tokenRequest (c1.tokenRequest code)] }
        | (none, c2, fs2) =>
          { err := none, client := c2, fs := fs2,
            trace := [Effect.startServer "8080", Effect.openBrowser authURL,
                      Effect.tokenRequest (c1.tokenRequest code)] }

/-! ## `config/config.go` -/

/-- The struct `Config`. -/
structure Config where
  SpotifyClientID : String
  SpotifyClientSecret : String
  SpotifyRedirectURI : String
  MusicBrainzURL : String
  deriving DecidableEq, Repr

/-- The function `getEnvOrDefault`; `getenv` is `os.Getenv`, which returns
the empty string for a variable that is not set. -/
def getEnvOrDefault (getenv : String → String) (key defaultValue : String) : String :=
  if getenv key ≠ "" then getenv key else defaultValue

/-- The function `config.Load`; `getenv` is the environment after
`godotenv.Load()` has merged the `.env` file, if there is one. -/
def Load (getenv : String → String) : Except Error Config :=
  let config : Config :=
    { SpotifyClientID := getenv "SPOTIFY_CLIENT_ID"
      SpotifyClientSecret := getenv "SPOTIFY_CLIENT_SECRET"
      SpotifyRedirectURI :=
        getEnvOrDefault getenv "SPOTIFY_REDIRECT_URI" "http://127.0.0.1:8080/callback"
      MusicBrainzURL := getEnvOrDefault getenv "MUSICBRAINZ_URL" "https://musicbrainz.org/ws/2" }
  if config.SpotifyClientID = "" then
    Except.error (Error.errorf "SPOTIFY_CLIENT_ID environment variable is required" [])
  else if config.SpotifyClientSecret = "" then
    Except.error (Error.errorf "SPOTIFY_CLIENT_SECRET environment variable is required" [])
  else Except.ok config

/-- The client that `main` builds from a loaded configuration. -/
def clientOfConfig (cfg : Config) : Client :=
  NewClient cfg.SpotifyClientID cfg.SpotifyClientSecret cfg.SpotifyRedirectURI

/-! ## `net/url`: decoding a query

The decoder of the Go standard library, used to read back what
`Values.Encode` has written.  Decoded keys and values are Go strings, given
here by their bytes. -/

/-- The function `ishex` of `net/url`. -/
def ishex (c : Char) : Bool :=
  (48 ≤ c.toNat ∧ c.toNat ≤ 57) ∨ (97 ≤ c.toNat ∧ c.toNat ≤ 102) ∨ (65 ≤ c.toNat ∧ c.toNat ≤ 70)

/-- The function `unhex` of `net/url`. -/
def unhex (c : Char) : Nat :=
  if 48 ≤ c.toNat ∧ c.toNat ≤ 57 then c.toNat - 48
  else if 97 ≤ c.toNat ∧ c.toNat ≤ 102 then c.toNat - 97 + 10
  else if 65 ≤ c.toNat ∧ c.toNat ≤ 70 then c.toNat - 65 + 10
  else 0

/-- Where the scan of `unescape` stands: outside an escape, after `%`, or
after `%` and a first hex digit of the given value. -/
inductive EscapeState where
  | plain
  | percent
  | digit (hi : Nat)
  deriving DecidableEq, Repr

/-- The function `unescape(s, encodeQueryComponent)` as one scan: `%XX`
becomes the byte `XX`, `+` becomes a space, every other character stands
for its own bytes; a `%` not followed by two hex digits is an error (`none`). -/
def unescapeFrom : EscapeState → List Char → Option (List Nat)
  | EscapeState.plain, [] => some []
  | EscapeState.percent, [] => none
  | EscapeState.digit _, [] => none
  | EscapeState.plain, c :: rest =>
    if c = '%' then unescapeFrom EscapeState.percent rest
    else if c = '+' then (unescapeFrom EscapeState.plain rest).map (fun t => 32 :: t)
    else (unescapeFrom EscapeState.plain rest).map (fun t => utf8 c ++ t)
  | EscapeState.percent, a :: rest =>
    if ishex a then unescapeFrom (EscapeState.digit (unhex a)) rest else none
  | EscapeState.digit hi, b :: rest =>
    if ishex b then
      (unescapeFrom EscapeState.plain rest).map (fun t => (hi * 16 + unhex b) :: t)
    else none

/-- The function `url.QueryUnescape`, `none` standing for its `EscapeError`. -/
def QueryUnescape (s : List Char) : Option (List Nat) := unescapeFrom EscapeState.plain s

/-- A decoded query: the map from keys to their values, keys and values as bytes,
the keys in the order in which they were first met. -/
abbrev ByteValues := List (List Nat × List (List Nat))

/-- The statement `m[key] = append(m[key], value)`. -/
def ByteValues.append (m : ByteValues) (key value : List Nat) : ByteValues :=
  match m with
  | [] => [(key, [value])]
  | (k, vs) :: rest =>
    if k = key then (k, vs ++ [value]) :: rest
    else (k, vs) :: ByteValues.append rest key value

/-- The pieces between the occurrences of a separator, as repeated `strings.Cut` yields them. -/
def splitOn (sep : Char) : List Char → List (List Char)
  | [] => [[]]
  | c :: rest =>
    if c = sep then [] :: splitOn sep rest
    else
      match splitOn sep rest with
      | [] => [[c]]
      | p :: ps => (c :: p) :: ps

/-- The function `strings.Cut` for a one-character separator: the text before
its first occurrence and the text after it. -/
def cut (sep : Char) : List Char → List Char × List Char
  | [] => ([], [])
  | c :: rest => if c = sep then ([], rest) else ((c :: (cut sep rest).1), (cut sep rest).2)

/-- One round of the loop of `parseQuery` on a piece between two `&`. -/
def parsePair (acc : ByteValues × Option Error) (piece : List Char) :
    ByteValues × Option Error :=
  if ';' ∈ piece then
    (acc.1, some (Error.errorf "invalid semicolon separator in query" []))
  else if piece = [] then acc
  else
    match QueryUnescape (cut '=' piece).1 with
    | none => (acc.1, acc.2.orElse fun _ => some (Error.external "invalid URL escape"))
    | some key =>
      match QueryUnescape (cut '=' piece).2 with
      | none => (acc.1, acc.2.orElse fun _ => some (Error.external "invalid URL escape"))
      | some value => (acc.1.append key value, acc.2)

/-- The function `url.ParseQuery`: the decoded values and the first error met. -/
def ParseQuery (query : String) : ByteValues × Option Error :=
  (splitOn '&' query.toList).foldl parsePair ([], none)

/-! ## A concrete system for evaluating the definitions -/

/-- The credential with access token `AT`, refresh token `RT` and expiry
2033-05-18T03:33:20Z, which is 2000000000 seconds after the epoch. -/
def exampleStored : StoredToken :=
  { AccessToken := "AT", RefreshToken := "RT", ExpiresAt := 2000000000000000000 }

/-- The text `json.MarshalIndent` produces for `exampleStored`. -/
def exampleTokenFile : Bytes :=
  bytes "\x7b\n  \"access_token\": \"AT\",\n  \"refresh_token\": \"RT\",\n  \"expires_at\": \"2033-05-18T03:33:20Z\"\n\x7d"

/-- A token endpoint body with a lifetime of one hour. -/
def exampleBody : Bytes :=
  bytes "\x7b\"access_token\":\"AT\",\"refresh_token\":\"RT\",\"expires_in\":3600\x7d"

/-- A token endpoint body with a lifetime of 9223372037 seconds. -/
def exampleLongBody : Bytes :=
  bytes "\x7b\"access_token\":\"AT\",\"refresh_token\":\"RT\",\"expires_in\":9223372037\x7d"

/-- A system with home directory `/home/user` in which `encoding/json` is
restricted to the example documents and fails on every other input. -/
def exampleSys : Sys :=
  { UserHomeDir := "/home/user"
    Join := fun dir name => dir ++ "/" ++ name
    MarshalIndent := fun s =>
      if s = exampleStored then Except.ok exampleTokenFile
      else Except.error (Error.external "json: unsupported value")
    Unmarshal := fun d =>
      if d = exampleTokenFile then Except.ok exampleStored
      else Except.error (Error.external "json: cannot unmarshal")
    Decode := fun d =>
      if d = exampleBody then
        Except.ok { AccessToken := "AT", TokenType := "", ExpiresIn := 3600,
                    RefreshToken := "RT", Scope := "" }
      else if d = exampleLongBody then
        Except.ok { AccessToken := "AT", TokenType := "", ExpiresIn := 9223372037,
                    RefreshToken := "RT", Scope := "" }
      else Except.error (Error.external "json: cannot decode") }

/-- A file system holding only the example token file at the token file path of `exampleSys`. -/
def exampleFS : FS := fun p =>
  if p = "/home/user/.barcode-music-player-token.json" then some exampleTokenFile else none

/-- The file system without any file. -/
def emptyFS : FS := fun _ => none

/-- A transport that answers every request with status 200 and the given body. -/
def respond200 (body : Bytes) : HTTPRequest → Except Error Response :=
  fun _ => Except.ok { StatusCode := 200, Body := body }

/-- The client of the end-to-end scenario. -/
def exampleClient : Client := NewClient "abc" "xyz" "http://127.0.0.1:8080/callback"

/-- The client of the end-to-end scenario holding the example credential. -/
def exampleAuthorized : Client :=
  { exampleClient with AccessToken := "AT", RefreshToken := "RT",
                       ExpiresAt := 2000000000000000000 }

/-- An outside world in which the user authorizes with the code `AUTHCODE`
and the token endpoint answers with `exampleBody`. -/
def exampleEnv (now : Time) : Env :=
  { nowLoad := now, listenErr := none, browserErr := none,
    redirects := [⟨[("code", ["AUTHCODE"])]⟩], timerWins := false,
    Do := respond200 exampleBody, nowExchange := now, writeErr := none }

/-- An environment that sets the client id `abc`, the secret `xyz` and a
redirect URI on port 9090. -/
def exampleGetenv9090 : String → String := fun key =>
  if key = "SPOTIFY_CLIENT_ID" then "abc"
  else if key = "SPOTIFY_CLIENT_SECRET" then "xyz"
  else if key = "SPOTIFY_REDIRECT_URI" then "http://127.0.0.1:9090/callback"
  else ""

/-! ## Lemmas on query values -/

/-- A key that is not set has no values. -/
theorem Values.index_of_Has_false (v : Values) (key : String) (h : Values.Has v key = false) :
    Values.index v key = [] := by
  induction v with
  | nil => rfl
  | cons p rest ih =>
    obtain ⟨k, vs⟩ := p
    by_cases hk : k = key
    · simp [Values.Has, hk] at h
    · simp only [Values.Has, hk, if_false] at h
      simp only [Values.index, hk, if_false]
      exact ih h

/-- Get returns the empty string for a key that is not set. -/
theorem Values.Get_of_Has_false (v : Values) (key : String) (h : Values.Has v key = false) :
    Values.Get v key = "" := by
  simp [Values.Get, Values.index_of_Has_false v key h]

/-! ## The callback listener -/

/-- C1: a callback request whose `error` parameter is non-empty, whatever its
`code` parameter, handled on a handler as `NewOAuthHandler` makes it (with
any server), records the authorization error carrying the value of the
parameter and stores no code; `WaitForCode`, receiving the signal, returns
that error with an empty code, and on either case of its `select` it
returns an empty code and a non-nil error. -/
theorem handleCallback_error_recorded (uri : String) (srv : Option Server) (r : Request)
    (timeout : Int) (herror : r.Query.Get "error" ≠ "") :
    (({ NewOAuthHandler uri with server := srv }).handleCallback r).1.err
        = some (Error.errorf "authorization error: %s" [Arg.str (r.Query.Get "error")]) ∧
    (({ NewOAuthHandler uri with server := srv }).handleCallback r).1.code = "" ∧
    ((({ NewOAuthHandler uri with server := srv }).handleCallback r).1.WaitForCode
        timeout false).1
        = ("", some (Error.errorf "authorization error: %s" [Arg.str (r.Query.Get "error")])) ∧
    ∀ timerWins : Bool,
      ((({ NewOAuthHandler uri with server := srv }).handleCallback r).1.WaitForCode
          timeout timerWins).1.1 = "" ∧
      ((({ NewOAuthHandler uri with server := srv }).handleCallback r).1.WaitForCode
          timeout timerWins).1.2 ≠ none := by
  refine ⟨?_, ?_, ?_, ?_⟩
  · simp [OAuthHandler.handleCallback, NewOAuthHandler, herror]
  · simp [OAuthHandler.handleCallback, NewOAuthHandler, herror]
  · cases srv <;>
      simp [OAuthHandler.handleCallback, NewOAuthHandler, herror, OAuthHandler.WaitForCode,
        OAuthHandler.shutdown]
  · intro timerWins
    cases timerWins <;> cases srv <;>
      simp [OAuthHandler.handleCallback, NewOAuthHandler, herror, OAuthHandler.WaitForCode,
        OAuthHandler.shutdown]

/-- Witness of C1: the redirect `error=access_denied&code=ABC123`. -/
theorem handleCallback_error_recorded_witness :
    (NewOAuthHandler "http://127.0.0.1:8080/callback").handleCallback
        ⟨[("error", ["access_denied"]), ("code", ["ABC123"])]⟩
      = ({ server := none, code := "",
           err := some (Error.errorf "authorization error: %s" [Arg.str "access_denied"]),
           done := [true] },
         Page.authorizationError "access_denied") ∧
    (((NewOAuthHandler "http://127.0.0.1:8080/callback").handleCallback
        ⟨[("error", ["access_denied"]), ("code", ["ABC123"])]⟩).1.WaitForCode
        120000000000 false).1
      = ("", some (Error.errorf "authorization error: %s" [Arg.str "access_denied"])) :=
  ⟨by decide,
   (handleCallback_error_recorded "http://127.0.0.1:8080/callback" none
      ⟨[("error", ["access_denied"]), ("code", ["ABC123"])]⟩ 120000000000 (by decide)).2.2.1⟩

/-- C4: a callback request with a non-empty `code` parameter `v` and no `error`
parameter, handled on a handler as `NewOAuthHandler` makes it (with any
server), stores `v` and no error, and `WaitForCode`, receiving the signal,
returns exactly `v` with a nil error. -/
theorem handleCallback_code_stored (uri : String) (srv : Option Server) (r : Request)
    (timeout : Int) (v : String) (hnoerr : r.Query.Has "error" = false)
    (hcode : r.Query.Get "code" = v) (hv : v ≠ "") :
    (({ NewOAuthHandler uri with server := srv }).handleCallback r).1.code = v ∧
    (({ NewOAuthHandler uri with server := srv }).handleCallback r).1.err = none ∧
    (({ NewOAuthHandler uri with server := srv }).handleCallback r).1.done = [true] ∧
    ((({ NewOAuthHandler uri with server := srv }).handleCallback r).1.WaitForCode
        timeout false).1 = (v, none) := by
  have he : r.Query.Get "error" = "" := Values.Get_of_Has_false _ _ hnoerr
  refine ⟨?_, ?_, ?_, ?_⟩
  · simp [OAuthHandler.handleCallback, NewOAuthHandler, he, hcode, hv]
  · simp [OAuthHandler.handleCallback, NewOAuthHandler, he, hcode, hv]
  · simp [OAuthHandler.handleCallback, NewOAuthHandler, he, hcode, hv]
  · cases srv <;>
      simp [OAuthHandler.handleCallback, NewOAuthHandler, he, hcode, hv,
        OAuthHandler.WaitForCode, OAuthHandler.shutdown]

/-- Witness of C4: the redirect `code=ABC123` yields the code `ABC123`. -/
theorem handleCallback_code_stored_witness :
    (((NewOAuthHandler "http://127.0.0.1:8080/callback").StartServer "8080" none).1.handleCallback
        ⟨[("code", ["ABC123"])]⟩).1
      = { server := some { Addr := ":8080", listening := true }, code := "ABC123",
          err := none, done := [true] } ∧
    ((({ NewOAuthHandler "http://127.0.0.1:8080/callback" with
          server := some { Addr := ":8080", listening := true } }).handleCallback
        ⟨[("code", ["ABC123"])]⟩).1.WaitForCode 120000000000 false).1 = ("ABC123", none) :=
  ⟨by decide,
   (handleCallback_code_stored "http://127.0.0.1:8080/callback"
      (some { Addr := ":8080", listening := true }) ⟨[("code", ["ABC123"])]⟩ 120000000000
      "ABC123" (by decide) (by decide) (by decide)).2.2.2⟩

/-- Counterexample to C5: after the redirect `code=ABC123` has completed a
fresh handler, the redirect `error=access_denied` replaces the stored error,
blocks a second sender on the completion channel, and changes what
`WaitForCode` returns from the code to an error; the same holds when the
first signal has already been received. -/
theorem second_redirect_changes_outcome :
    ((NewOAuthHandler "").handleCallback ⟨[("code", ["ABC123"])]⟩).1
      = { server := none, code := "ABC123", err := none, done := [true] } ∧
    ((((NewOAuthHandler "").handleCallback ⟨[("code", ["ABC123"])]⟩).1.handleCallback
        ⟨[("error", ["access_denied"])]⟩).1)
      = { server := none, code := "ABC123",
          err := some (Error.errorf "authorization error: %s" [Arg.str "access_denied"]),
          done := [true, true] } ∧
    (((NewOAuthHandler "").handleCallback ⟨[("code", ["ABC123"])]⟩).1.WaitForCode
        120000000000 false).1 = ("ABC123", none) ∧
    ((((NewOAuthHandler "").handleCallback ⟨[("code", ["ABC123"])]⟩).1.handleCallback
        ⟨[("error", ["access_denied"])]⟩).1.WaitForCode 120000000000 false).1
      = ("", some (Error.errorf "authorization error: %s" [Arg.str "access_denied"])) ∧
    ((((NewOAuthHandler "").handleCallback ⟨[("code", ["ABC123"])]⟩).1.WaitForCode
        120000000000 false).2.handleCallback ⟨[("error", ["access_denied"])]⟩).1
      = { server := none, code := "ABC123",
          err := some (Error.errorf "authorization error: %s" [Arg.str "access_denied"]),
          done := [true] } := by
  decide

/-- C5, amended: `handleCallback` has no guard for a completed handler.  On
every handler a redirect blocks one more sender on the completion channel
and leaves the server alone; it replaces the stored error when it carries a
non-empty `error` parameter or no code and keeps it otherwise; it replaces
the stored code when it carries a code and no error and keeps it
otherwise.  So a recorded error is never cleared, and a redirect with the
query of the one before leaves the stored code and error as they are. -/
theorem handleCallback_any_handler (h : OAuthHandler) (r : Request) :
    (h.handleCallback r).1.done = h.done ++ [true] ∧
    (h.handleCallback r).1.server = h.server ∧
    (h.handleCallback r).1.err =
      (if r.Query.Get "error" ≠ "" then
        some (Error.errorf "authorization error: %s" [Arg.str (r.Query.Get "error")])
       else if r.Query.Get "code" = "" then
        some (Error.errorf "no authorization code received" [])
       else h.err) ∧
    (h.handleCallback r).1.code =
      (if r.Query.Get "error" = "" ∧ r.Query.Get "code" ≠ "" then r.Query.Get "code"
       else h.code) ∧
    ((h.handleCallback r).1.err = none ↔
      (h.err = none ∧ r.Query.Get "error" = "" ∧ r.Query.Get "code" ≠ "")) ∧
    ((h.handleCallback r).1.handleCallback r).1.err = (h.handleCallback r).1.err ∧
    ((h.handleCallback r).1.handleCallback r).1.code = (h.handleCallback r).1.code := by
  by_cases he : r.Query.Get "error" = "" <;> by_cases hc : r.Query.Get "code" = "" <;>
    simp [OAuthHandler.handleCallback, he, hc]

/-- C6: a callback request with neither a `code` nor an `error` parameter,
handled on a handler as `NewOAuthHandler` makes it (with any server),
records the error "no authorization code received", stores no code, and
`WaitForCode`, receiving the signal, returns that error with an empty code. -/
theorem handleCallback_missing_code (uri : String) (srv : Option Server) (r : Request)
    (timeout : Int) (hnocode : r.Query.Has "code" = false)
    (hnoerr : r.Query.Has "error" = false) :
    (({ NewOAuthHandler uri with server := srv }).handleCallback r).1.err
        = some (Error.errorf "no authorization code received" []) ∧
    (({ NewOAuthHandler uri with server := srv }).handleCallback r).1.code = "" ∧
    (({ NewOAuthHandler uri with server := srv }).handleCallback r).2 = Page.noCodeReceived ∧
    ((({ NewOAuthHandler uri with server := srv }).handleCallback r).1.WaitForCode
        timeout false).1
        = ("", some (Error.errorf "no authorization code received" [])) := by
  have he : r.Query.Get "error" = "" := Values.Get_of_Has_false _ _ hnoerr
  have hc : r.Query.Get "code" = "" := Values.Get_of_Has_false _ _ hnocode
  refine ⟨?_, ?_, ?_, ?_⟩
  · simp [OAuthHandler.handleCallback, NewOAuthHandler, he, hc]
  · simp [OAuthHandler.handleCallback, NewOAuthHandler, he, hc]
  · simp [OAuthHandler.handleCallback, NewOAuthHandler, he, hc]
  · cases srv <;>
      simp [OAuthHandler.handleCallback, NewOAuthHandler, he, hc, OAuthHandler.WaitForCode,
        OAuthHandler.shutdown]

/-- Witness of C6: a redirect whose only parameter is `state=xyz`. -/
theorem handleCallback_missing_code_witness :
    (NewOAuthHandler "http://127.0.0.1:8080/callback").handleCallback ⟨[("state", ["xyz"])]⟩
      = ({ server := none, code := "",
           err := some (Error.errorf "no authorization code received" []), done := [true] },
         Page.noCodeReceived) ∧
    (((NewOAuthHandler "http://127.0.0.1:8080/callback").handleCallback
        ⟨[("state", ["xyz"])]⟩).1.WaitForCode 120000000000 false).1
      = ("", some (Error.errorf "no authorization code received" [])) :=
  ⟨by decide,
   (handleCallback_missing_code "http://127.0.0.1:8080/callback" none ⟨[("state", ["xyz"])]⟩
      120000000000 (by decide) (by decide)).2.2.2⟩

/-- C7: for every timeout and every handler, when the `select` of
`WaitForCode` is resolved by the timer (no sender is blocked on the
completion channel, or the timer case is picked), `WaitForCode` runs
`shutdown`, returns the empty code together with the timeout error, and
leaves no server with an open listener. -/
theorem WaitForCode_timeout (h : OAuthHandler) (timeout : Int) (timerWins : Bool)
    (hno : h.done = [] ∨ timerWins = true) :
    (h.WaitForCode timeout timerWins).1
        = ("", some (Error.errorf "authorization timeout after %v" [Arg.dur timeout])) ∧
    (h.WaitForCode timeout timerWins).2 = h.shutdown ∧
    ∀ s : Server, (h.WaitForCode timeout timerWins).2.server = some s → s.listening = false := by
  have key : h.WaitForCode timeout timerWins
      = (("", some (Error.errorf "authorization timeout after %v" [Arg.dur timeout])),
         h.shutdown) := by
    rcases hno with hd | ht
    · simp [OAuthHandler.WaitForCode, hd]
    · subst ht
      cases hd : h.done <;> simp [OAuthHandler.WaitForCode, hd]
  refine ⟨by rw [key], by rw [key], ?_⟩
  intro s hs
  rw [key] at hs
  cases hsrv : h.server with
  | none => simp [OAuthHandler.shutdown, hsrv] at hs
  | some s0 =>
    simp [OAuthHandler.shutdown, hsrv] at hs
    rw [← hs]

/-- Witness of C7: a started listener on which no redirect arrives within two minutes. -/
theorem WaitForCode_timeout_witness :
    ((NewOAuthHandler "http://127.0.0.1:8080/callback").StartServer "8080" none).1
      = { server := some { Addr := ":8080", listening := true }, code := "", err := none,
          done := [] } ∧
    (((NewOAuthHandler "http://127.0.0.1:8080/callback").StartServer "8080" none).1.WaitForCode
        120000000000 false)
      = (("", some (Error.errorf "authorization timeout after %v" [Arg.dur 120000000000])),
         { server := some { Addr := ":8080", listening := false }, code := "", err := none,
           done := [] }) :=
  ⟨by decide,
   by
    have hw := WaitForCode_timeout
      ((NewOAuthHandler "http://127.0.0.1:8080/callback").StartServer "8080" none).1
      120000000000 false (Or.inl (by decide))
    exact Prod.ext hw.1 (hw.2.1.trans (by decide))⟩

/-! ## The token store -/

/-- The value stored in an `int64` is the integer itself when it is in range. -/
theorem wrapInt64_of_range (x : Int) (hlo : -9223372036854775808 ≤ x)
    (hhi : x < 9223372036854775808) : wrapInt64 x = x := by
  unfold wrapInt64
  norm_num
  omega

/-- Counterexample to C2: at the boundary `expires_at = now + 5 minutes`
exactly, `LoadStoredToken` returns true and loads the stored credential. -/
theorem LoadStoredToken_boundary_loads :
    exampleStored.ExpiresAt = (1999999700000000000 : Int) + 5 * Minute ∧
    exampleClient.LoadStoredToken exampleSys exampleFS 1999999700000000000
      = (true, exampleAuthorized) := by
  decide

/-- C2, amended: for every stored credential record that decodes and every
current time `now`, when `expires_at` is strictly before `now + 5 minutes`
(every `expires_at` in the past included) `LoadStoredToken` returns false
and leaves the client as it was; at the boundary `expires_at = now + 5
minutes` exactly it returns true and loads the stored credential. -/
theorem LoadStoredToken_expired (sys : Sys) (c : Client) (fs : FS) (now : Time)
    (data : Bytes) (stored : StoredToken)
    (hfile : fs (c.getTokenFilePath sys) = some data)
    (hjson : sys.Unmarshal data = Except.ok stored) :
    (stored.ExpiresAt < now + 5 * Minute → c.LoadStoredToken sys fs now = (false, c)) ∧
    (stored.ExpiresAt = now + 5 * Minute →
      c.LoadStoredToken sys fs now
        = (true, { c with AccessToken := stored.AccessToken,
                          RefreshToken := stored.RefreshToken,
                          ExpiresAt := stored.ExpiresAt })) := by
  constructor
  · intro hexp
    simp only [Client.LoadStoredToken, hfile, hjson]
    simp [Time.After, Time.Add, hexp]
  · intro hexp
    simp only [Client.LoadStoredToken, hfile, hjson]
    simp [Time.After, Time.Add, hexp]

/-- Witness of the amended C2: the example record one nanosecond inside the buffer. -/
theorem LoadStoredToken_expired_witness :
    exampleStored.ExpiresAt < (1999999700000000001 : Int) + 5 * Minute ∧
    exampleClient.LoadStoredToken exampleSys exampleFS 1999999700000000001
      = (false, exampleClient) :=
  ⟨by decide,
   (LoadStoredToken_expired exampleSys exampleClient exampleFS 1999999700000000001
     exampleTokenFile exampleStored (by decide) (by simp [exampleSys])).1 (by decide)⟩

/-- C3: for every stored credential record that decodes and every current
time with `now + 5 minutes < expires_at`, `LoadStoredToken` returns true
and sets `AccessToken`, `RefreshToken` and `ExpiresAt` to the stored
values, and `authenticateSpotify` returns nil with that client, without
starting the listener, opening the browser or sending a token request. -/
theorem LoadStoredToken_valid_short_circuit (sys : Sys) (env : Env) (c : Client) (fs : FS)
    (data : Bytes) (stored : StoredToken)
    (hfile : fs (c.getTokenFilePath sys) = some data)
    (hjson : sys.Unmarshal data = Except.ok stored)
    (hvalid : env.nowLoad + 5 * Minute < stored.ExpiresAt) :
    c.LoadStoredToken sys fs env.nowLoad
      = (true, { c with AccessToken := stored.AccessToken,
                        RefreshToken := stored.RefreshToken,
                        ExpiresAt := stored.ExpiresAt }) ∧
    (authenticateSpotify sys env c fs).err = none ∧
    (authenticateSpotify sys env c fs).trace = [] ∧
    (authenticateSpotify sys env c fs).client
      = { c with AccessToken := stored.AccessToken,
                 RefreshToken := stored.RefreshToken,
                 ExpiresAt := stored.ExpiresAt } ∧
    (authenticateSpotify sys env c fs).fs = fs := by
  have hload : c.LoadStoredToken sys fs env.nowLoad
      = (true, { c with AccessToken := stored.AccessToken,
                        RefreshToken := stored.RefreshToken,
                        ExpiresAt := stored.ExpiresAt }) := by
    simp only [Client.LoadStoredToken, hfile, hjson]
    have : ¬ stored.ExpiresAt < env.nowLoad + 5 * Minute := not_lt.mpr (le_of_lt hvalid)
    simp [Time.After, Time.Add, this]
  refine ⟨hload, ?_, ?_, ?_, ?_⟩ <;> simp [authenticateSpotify, hload]

/-- Witness of C3: the example record read five minutes and one nanosecond before it expires. -/
theorem LoadStoredToken_valid_short_circuit_witness :
    (exampleEnv 1999999699999999999).nowLoad + 5 * Minute < exampleStored.ExpiresAt ∧
    exampleClient.LoadStoredToken exampleSys exampleFS 1999999699999999999
      = (true, exampleAuthorized) ∧
    (authenticateSpotify exampleSys (exampleEnv 1999999699999999999) exampleClient
      exampleFS).trace = [] :=
  ⟨by decide,
   (LoadStoredToken_valid_short_circuit exampleSys (exampleEnv 1999999699999999999)
      exampleClient exampleFS exampleTokenFile exampleStored (by decide)
      (by simp [exampleSys]) (by decide)).1,
   by decide⟩

/-- C8: when `encoding/json` decodes what it has encoded, for every client
credential with `now + 5 minutes < expires_at`, a `SaveToken` that returns
nil followed by `LoadStoredToken` (by any client of the same system, on
the file system `SaveToken` left) returns true and leaves the loading
client with the access token, refresh token and `expires_at` that were saved. -/
theorem SaveToken_LoadStoredToken_roundtrip (sys : Sys) (c c2 : Client) (fs fs1 : FS)
    (now : Time) (writeErr : Option Error)
    (hjson : ∀ (s : StoredToken) (d : Bytes),
      sys.MarshalIndent s = Except.ok d → sys.Unmarshal d = Except.ok s)
    (hsave : c.SaveToken sys fs writeErr = (none, fs1))
    (hvalid : now + 5 * Minute < c.ExpiresAt) :
    c2.LoadStoredToken sys fs1 now
      = (true, { c2 with AccessToken := c.AccessToken, RefreshToken := c.RefreshToken,
                         ExpiresAt := c.ExpiresAt }) := by
  unfold Client.SaveToken at hsave
  cases hm : sys.MarshalIndent
      { AccessToken := c.AccessToken, RefreshToken := c.RefreshToken,
        ExpiresAt := c.ExpiresAt } with
  | error e => simp [hm] at hsave
  | ok data =>
    cases writeErr with
    | some e => simp [hm] at hsave
    | none =>
      simp only [hm, Prod.mk.injEq, true_and] at hsave
      have hu := hjson _ _ hm
      have hnot : ¬ c.ExpiresAt < now + 5 * Minute := not_lt.mpr (le_of_lt hvalid)
      subst hsave
      simp [Client.LoadStoredToken, Client.getTokenFilePath, hu, Time.After, Time.Add, hnot]

/-- Witness of C8: the example credential saved into an empty file system
by one client and loaded by a new client an hour before it expires. -/
theorem SaveToken_LoadStoredToken_roundtrip_witness :
    exampleAuthorized.SaveToken exampleSys emptyFS none = (none, exampleFS) ∧
    (NewClient "abc" "xyz" "http://127.0.0.1:8080/callback").LoadStoredToken exampleSys
        exampleFS 1999996400000000000
      = (true, { AccessToken := "AT", RefreshToken := "RT", ExpiresAt := 2000000000000000000,
                 ClientID := "abc", ClientSecret := "xyz",
                 RedirectURI := "http://127.0.0.1:8080/callback" }) := by
  have hsave : exampleAuthorized.SaveToken exampleSys emptyFS none = (none, exampleFS) := by
    simp only [Client.SaveToken, exampleSys, exampleStored, exampleAuthorized, exampleClient,
      NewClient, Client.getTokenFilePath, if_true, Prod.mk.injEq, true_and]
    funext p
    simp [exampleFS, emptyFS]
  refine ⟨hsave, ?_⟩
  have hjson : ∀ (s : StoredToken) (d : Bytes),
      exampleSys.MarshalIndent s = Except.ok d → exampleSys.Unmarshal d = Except.ok s := by
    intro s d h
    by_cases hs : s = exampleStored
    · simp [exampleSys, hs] at h
      simp [exampleSys, ← h, hs]
    · simp [exampleSys, hs] at h
  exact SaveToken_LoadStoredToken_roundtrip exampleSys exampleAuthorized
    (NewClient "abc" "xyz" "http://127.0.0.1:8080/callback") emptyFS exampleFS
    1999996400000000000 none hjson hsave (by decide)

/-! ## The authorization URL and the token exchange -/

set_option maxRecDepth 100000

/-- Counterexample to C9: for the client with id `abc` and redirect URI
`http://127.0.0.1:8080/callback` the authorization URL does not contain the
parameters in the order `client_id`, `response_type`, `redirect_uri`, `scope`. -/
theorem GetAuthURL_not_in_insertion_order :
    ¬ ("client_id=abc&response_type=code&redirect_uri=http%3A%2F%2F127.0.0.1%3A8080%2Fcallback&scope=user-read-playback-state+user-modify-playback-state".toList
        <:+: exampleClient.GetAuthURL.toList) := by
  decide

/-- C9, amended: for a client with client id `abc` and redirect URI
`http://127.0.0.1:8080/callback`, `GetAuthURL` returns the authorize
endpoint followed by the four parameters in the sorted order of their keys,
so it contains the contiguous substring
`client_id=abc&redirect_uri=http%3A%2F%2F127.0.0.1%3A8080%2Fcallback&response_type=code&scope=user-read-playback-state+user-modify-playback-state`. -/
theorem GetAuthURL_sorted_by_key (c : Client) (hid : c.ClientID = "abc")
    (huri : c.RedirectURI = "http://127.0.0.1:8080/callback") :
    c.GetAuthURL = "https://accounts.spotify.com/authorize?client_id=abc&redirect_uri=http%3A%2F%2F127.0.0.1%3A8080%2Fcallback&response_type=code&scope=user-read-playback-state+user-modify-playback-state" ∧
    "client_id=abc&redirect_uri=http%3A%2F%2F127.0.0.1%3A8080%2Fcallback&response_type=code&scope=user-read-playback-state+user-modify-playback-state".toList
      <:+: c.GetAuthURL.toList := by
  have hurl : c.GetAuthURL = "https://accounts.spotify.com/authorize?client_id=abc&redirect_uri=http%3A%2F%2F127.0.0.1%3A8080%2Fcallback&response_type=code&scope=user-read-playback-state+user-modify-playback-state" := by
    unfold Client.GetAuthURL
    rw [hid, huri]
    decide
  refine ⟨hurl, ?_⟩
  rw [hurl]
  decide

/-- Witness of the amended C9: the client of the end-to-end scenario. -/
theorem GetAuthURL_sorted_by_key_witness :
    exampleClient.GetAuthURL = "https://accounts.spotify.com/authorize?client_id=abc&redirect_uri=http%3A%2F%2F127.0.0.1%3A8080%2Fcallback&response_type=code&scope=user-read-playback-state+user-modify-playback-state" :=
  (GetAuthURL_sorted_by_key exampleClient (by decide) (by decide)).1

/-- Counterexample to C10: for a response with status 200 whose body decodes
to a lifetime of 9223372037 seconds, the multiplication by `time.Second`
overflows the 64-bit duration and `ExpiresAt` is set about 292 years
before `now` instead of to `now + expires_in` seconds. -/
theorem ExchangeCodeForToken_lifetime_overflow :
    exampleSys.Decode exampleLongBody
      = Except.ok { AccessToken := "AT", TokenType := "", ExpiresIn := 9223372037,
                    RefreshToken := "RT", Scope := "" } ∧
    (exampleClient.ExchangeCodeForToken exampleSys "AUTHCODE" (respond200 exampleLongBody)
        1700000000000000000 none emptyFS).2.1.ExpiresAt
      = 1700000000000000000 - 9223372036709551616 ∧
    (exampleClient.ExchangeCodeForToken exampleSys "AUTHCODE" (respond200 exampleLongBody)
        1700000000000000000 none emptyFS).2.1.ExpiresAt
      ≠ 1700000000000000000 + 9223372037 * 1000000000 := by
  have hne : exampleLongBody ≠ exampleBody := by decide
  refine ⟨by simp [exampleSys, hne], ?_, ?_⟩ <;> decide

/-- C10, amended: for every response with status 200 whose body decodes to a
token response with a lifetime between -9223372036 and 9223372036 seconds
(so that the lifetime in nanoseconds fits the 64-bit duration),
`ExchangeCodeForToken` returns nil and sets the client's credential to the
body's access token, the body's refresh token and `now + expires_in`
seconds, whatever `SaveToken` does. -/
theorem ExchangeCodeForToken_sets_credential (sys : Sys) (c : Client) (code : String)
    (Do : HTTPRequest → Except Error Response) (now : Time) (writeErr : Option Error)
    (fs : FS) (resp : Response) (tokenResp : TokenResponse)
    (hdo : Do (c.tokenRequest code) = Except.ok resp)
    (hstatus : resp.StatusCode = 200)
    (hbody : sys.Decode resp.Body = Except.ok tokenResp)
    (hlo : -9223372036 ≤ tokenResp.ExpiresIn) (hhi : tokenResp.ExpiresIn ≤ 9223372036) :
    (c.ExchangeCodeForToken sys code Do now writeErr fs).1 = none ∧
    (c.ExchangeCodeForToken sys code Do now writeErr fs).2.1
      = { c with AccessToken := tokenResp.AccessToken,
                 RefreshToken := tokenResp.RefreshToken,
                 ExpiresAt := now + tokenResp.ExpiresIn * 1000000000 } := by
  have hw : wrapInt64 (tokenResp.ExpiresIn * Second) = tokenResp.ExpiresIn * 1000000000 := by
    unfold Second
    apply wrapInt64_of_range <;> omega
  simp [Client.ExchangeCodeForToken, hdo, hstatus, hbody, hw, Time.Add]

/-- Witness of the amended C10: the body of the end-to-end scenario, with a
write of the token file that fails. -/
theorem ExchangeCodeForToken_sets_credential_witness :
    (exampleClient.ExchangeCodeForToken exampleSys "AUTHCODE" (respond200 exampleBody)
        1700000000000000000 (some (Error.external "permission denied")) emptyFS).2.1
      = { exampleClient with AccessToken := "AT", RefreshToken := "RT",
                             ExpiresAt := 1700000000000000000 + 3600 * 1000000000 } :=
  (ExchangeCodeForToken_sets_credential exampleSys exampleClient "AUTHCODE"
    (respond200 exampleBody) 1700000000000000000 (some (Error.external "permission denied"))
    emptyFS { StatusCode := 200, Body := exampleBody }
    { AccessToken := "AT", TokenType := "", ExpiresIn := 3600, RefreshToken := "RT", Scope := "" }
    (by rfl) (by rfl) (by simp [exampleSys]) (by decide) (by decide)).2

/-! ## The listener port -/

/-- C11, the code at a configuration whose redirect URI has port 9090:
`Load` yields that redirect URI, the authorization URL asks for a redirect
to port 9090, and the listener is started on port 8080.  Whatever the
client, a run that does not find a stored token starts the listener on
the literal port 8080, and `StartServer` binds the address it is given. -/
theorem authenticateSpotify_listens_on_8080 :
    Load exampleGetenv9090
      = Except.ok { SpotifyClientID := "abc", SpotifyClientSecret := "xyz",
                    SpotifyRedirectURI := "http://127.0.0.1:9090/callback",
                    MusicBrainzURL := "https://musicbrainz.org/ws/2" } ∧
    (authenticateSpotify exampleSys (exampleEnv 1700000000000000000)
        (clientOfConfig { SpotifyClientID := "abc", SpotifyClientSecret := "xyz",
                          SpotifyRedirectURI := "http://127.0.0.1:9090/callback",
                          MusicBrainzURL := "https://musicbrainz.org/ws/2" }) emptyFS).trace
      = [Effect.startServer "8080",
         Effect.openBrowser "https://accounts.spotify.com/authorize?client_id=abc&redirect_uri=http%3A%2F%2F127.0.0.1%3A9090%2Fcallback&response_type=code&scope=user-read-playback-state+user-modify-playback-state",
         Effect.tokenRequest
           { Method := "POST", URL := "https://accounts.spotify.com/api/token",
             Body := "code=AUTHCODE&grant_type=authorization_code&redirect_uri=http%3A%2F%2F127.0.0.1%3A9090%2Fcallback",
             ContentType := "application/x-www-form-urlencoded",
             BasicAuth := some ("abc", "xyz") }] ∧
    ((NewOAuthHandler "http://127.0.0.1:9090/callback").StartServer "8080" none).1.server
      = some { Addr := ":8080", listening := true } ∧
    ∀ (sys : Sys) (env : Env) (c : Client) (fs : FS),
      (c.LoadStoredToken sys fs env.nowLoad).1 = false →
      (authenticateSpotify sys env c fs).trace.head? = some (Effect.startServer "8080") := by
  refine ⟨by simp [Load, getEnvOrDefault, exampleGetenv9090], by decide, by decide, ?_⟩
  intro sys env c fs hload
  unfold authenticateSpotify
  rcases hc : c.LoadStoredToken sys fs env.nowLoad with ⟨b, c1⟩
  rw [hc] at hload
  simp only at hload
  subst hload
  simp only [OAuthHandler.StartServer]
  cases env.listenErr <;>
    (simp only []
     split
     · rfl
     · split <;> rfl)

/-! ## The query of the authorization URL decodes to its parameters -/

/-- A character is a code point below 0x110000. -/
theorem char_toNat_lt (c : Char) : c.toNat < 1114112 := by
  have h := c.valid
  simp only [UInt32.isValidChar, Nat.isValidChar] at h
  show c.val.toNat < 1114112
  omega

/-- Every element of the encoding of a character is a byte. -/
theorem utf8_lt (c : Char) : ∀ b ∈ utf8 c, b < 256 := by
  have h := char_toNat_lt c
  intro b hb
  unfold utf8 at hb
  simp only at hb
  split_ifs at hb <;> simp at hb <;> omega

/-- Every element of `bytes s` is a byte. -/
theorem bytes_lt (s : String) : ∀ b ∈ bytes s, b < 256 := by
  intro b hb
  simp only [bytes, List.mem_flatMap] at hb
  obtain ⟨c, _, hc⟩ := hb
  exact utf8_lt c b hc

/-- The digits of `upperhex` are hex digits and `unhex` reads them back. -/
theorem upperhex_spec : ∀ n < 16, ishex (upperhex n) = true ∧ unhex (upperhex n) = n := by
  decide

/-- No digit of `upperhex` is one of the separators `&`, `=`, `;`. -/
theorem upperhex_not_separator : ∀ n < 16,
    upperhex n ≠ '&' ∧ upperhex n ≠ '=' ∧ upperhex n ≠ ';' := by
  decide

/-- A byte that is not escaped is an ASCII byte. -/
theorem shouldEscape_false_lt (b : Nat) (h : shouldEscape b = false) : b < 127 := by
  unfold shouldEscape at h
  split_ifs at h <;> omega

/-- A byte that is not escaped is written as a character that is neither
`%`, `+` nor a separator, and that stands for this byte alone. -/
theorem unreserved_spec : ∀ b < 127, shouldEscape b = false →
    Char.ofNat b ≠ '%' ∧ Char.ofNat b ≠ '+' ∧ Char.ofNat b ≠ '&' ∧ Char.ofNat b ≠ '=' ∧
    Char.ofNat b ≠ ';' ∧ utf8 (Char.ofNat b) = [b] := by
  decide

/-- Decoding what `escapeByte` wrote for a byte gives the byte back. -/
theorem unescapeFrom_escapeByte (b : Nat) (hb : b < 256) (rest : List Char) :
    unescapeFrom EscapeState.plain (escapeByte b ++ rest)
      = (unescapeFrom EscapeState.plain rest).map (fun t => b :: t) := by
  unfold escapeByte
  cases hesc : shouldEscape b with
  | false =>
    obtain ⟨h1, h2, -, -, -, h6⟩ := unreserved_spec b (shouldEscape_false_lt b hesc) hesc
    simp [unescapeFrom, h1, h2, h6]
  | true =>
    by_cases h32 : b = 32
    · subst h32
      simp [unescapeFrom]
    · obtain ⟨hi1, hi2⟩ := upperhex_spec (b / 16) (by omega)
      obtain ⟨lo1, lo2⟩ := upperhex_spec (b % 16) (by omega)
      have hb' : b / 16 * 16 + b % 16 = b := by omega
      simp [unescapeFrom, h32, hi1, hi2, lo1, lo2, hb']

/-- QueryUnescape inverts the escaping of a sequence of bytes. -/
theorem QueryUnescape_escape (bs : List Nat) (h : ∀ b ∈ bs, b < 256) :
    QueryUnescape (bs.flatMap escapeByte) = some bs := by
  unfold QueryUnescape
  induction bs with
  | nil => rfl
  | cons b rest ih =>
    rw [List.flatMap_cons, unescapeFrom_escapeByte b (h b (List.mem_cons_self _ _)),
      ih (fun x hx => h x (List.mem_cons_of_mem _ hx))]
    rfl

/-- What `escapeByte` writes contains none of `&`, `=`, `;`. -/
theorem escapeByte_not_separator (b : Nat) (hb : b < 256) :
    ∀ ch ∈ escapeByte b, ch ≠ '&' ∧ ch ≠ '=' ∧ ch ≠ ';' := by
  intro ch hch
  unfold escapeByte at hch
  cases hesc : shouldEscape b with
  | false =>
    obtain ⟨-, -, h3, h4, h5, -⟩ := unreserved_spec b (shouldEscape_false_lt b hesc) hesc
    simp [hesc] at hch
    subst hch
    exact ⟨h3, h4, h5⟩
  | true =>
    by_cases h32 : b = 32
    · subst h32
      simp [hesc] at hch
      subst hch
      decide
    · simp [hesc, h32] at hch
      rcases hch with h | h | h
      · subst h; decide
      · subst h; exact upperhex_not_separator _ (by omega)
      · subst h; exact upperhex_not_separator _ (by omega)

/-- An escaped sequence of bytes contains none of `&`, `=`, `;`. -/
theorem escape_not_separator (bs : List Nat) (h : ∀ b ∈ bs, b < 256) :
    ∀ ch ∈ bs.flatMap escapeByte, ch ≠ '&' ∧ ch ≠ '=' ∧ ch ≠ ';' := by
  intro ch hch
  rw [List.mem_flatMap] at hch
  obtain ⟨b, hb, hc⟩ := hch
  exact escapeByte_not_separator b (h b hb) ch hc

/-- Splitting yields at least one piece. -/
theorem splitOn_ne_nil (sep : Char) (l : List Char) : splitOn sep l ≠ [] := by
  cases l with
  | nil => simp [splitOn]
  | cons c rest =>
    unfold splitOn
    split_ifs
    · simp
    · split <;> simp

/-- A text without the separator is a single piece. -/
theorem splitOn_of_not_mem (sep : Char) (a : List Char) (h : ∀ ch ∈ a, ch ≠ sep) :
    splitOn sep a = [a] := by
  induction a with
  | nil => rfl
  | cons c rest ih =>
    have hc : c ≠ sep := h c (List.mem_cons_self _ _)
    simp [splitOn, hc, ih (fun x hx => h x (List.mem_cons_of_mem _ hx))]

/-- The first piece ends at the first separator. -/
theorem splitOn_append (sep : Char) (a b : List Char) (h : ∀ ch ∈ a, ch ≠ sep) :
    splitOn sep (a ++ sep :: b) = a :: splitOn sep b := by
  induction a with
  | nil => simp [splitOn]
  | cons c rest ih =>
    have hc : c ≠ sep := h c (List.mem_cons_self _ _)
    simp [splitOn, hc, ih (fun x hx => h x (List.mem_cons_of_mem _ hx))]

/-- Cut splits at the first separator. -/
theorem cut_append (sep : Char) (a b : List Char) (h : ∀ ch ∈ a, ch ≠ sep) :
    cut sep (a ++ sep :: b) = (a, b) := by
  induction a with
  | nil => simp [cut]
  | cons c rest ih =>
    have hc : c ≠ sep := h c (List.mem_cons_self _ _)
    simp [cut, hc, ih (fun x hx => h x (List.mem_cons_of_mem _ hx))]

/-- One round of `parseQuery` on an encoded pair appends the decoded value to the decoded key. -/
theorem parsePair_escaped (acc : ByteValues × Option Error) (k v : List Nat)
    (hk : ∀ b ∈ k, b < 256) (hv : ∀ b ∈ v, b < 256) :
    parsePair acc (k.flatMap escapeByte ++ '=' :: v.flatMap escapeByte)
      = (acc.1.append k v, acc.2) := by
  have hsemi : ';' ∉ k.flatMap escapeByte ++ '=' :: v.flatMap escapeByte := by
    intro hc
    rcases List.mem_append.mp hc with h | h
    · exact (escape_not_separator k hk _ h).2.2 rfl
    · rcases List.mem_cons.mp h with h | h
      · exact absurd h (by decide)
      · exact (escape_not_separator v hv _ h).2.2 rfl
  have hcut := cut_append '=' (k.flatMap escapeByte) (v.flatMap escapeByte)
    (fun ch hch => (escape_not_separator k hk ch hch).2.1)
  have hne : k.flatMap escapeByte ++ '=' :: v.flatMap escapeByte ≠ [] := by simp
  unfold parsePair
  rw [if_neg hsemi, if_neg hne, hcut]
  simp only [QueryUnescape_escape k hk, QueryUnescape_escape v hv]

/-- An encoded pair contains no `&`. -/
theorem piece_not_amp (k v : List Nat) (hk : ∀ b ∈ k, b < 256) (hv : ∀ b ∈ v, b < 256) :
    ∀ ch ∈ k.flatMap escapeByte ++ '=' :: v.flatMap escapeByte, ch ≠ '&' := by
  intro ch hc
  rcases List.mem_append.mp hc with h | h
  · exact (escape_not_separator k hk _ h).1
  · rcases List.mem_cons.mp h with h | h
    · subst h; decide
    · exact (escape_not_separator v hv _ h).1

/-- The sorted order of the four keys of the authorization URL. -/
theorem authParams_sorted :
    sortKeys ["client_id", "response_type", "redirect_uri", "scope"]
      = ["client_id", "redirect_uri", "response_type", "scope"] := by
  decide

/-- The authorization URL as the endpoint followed by the four encoded pairs. -/
theorem GetAuthURL_eq (c : Client) :
    c.GetAuthURL = "https://accounts.spotify.com/authorize?" ++
      (QueryEscape "client_id" ++ "=" ++ QueryEscape c.ClientID ++ "&" ++
        (QueryEscape "redirect_uri" ++ "=" ++ QueryEscape c.RedirectURI) ++ "&" ++
        (QueryEscape "response_type" ++ "=" ++ QueryEscape "code") ++ "&" ++
        (QueryEscape "scope" ++ "=" ++
          QueryEscape "user-read-playback-state user-modify-playback-state")) := by
  have hadd : Values.Add (Values.Add (Values.Add (Values.Add [] "client_id" c.ClientID)
        "response_type" "code") "redirect_uri" c.RedirectURI)
        "scope" "user-read-playback-state user-modify-playback-state"
      = [("client_id", [c.ClientID]), ("response_type", ["code"]),
         ("redirect_uri", [c.RedirectURI]),
         ("scope", ["user-read-playback-state user-modify-playback-state"])] := by
    simp [Values.Add]
  unfold Client.GetAuthURL
  simp only [hadd, Values.Encode, List.map, authParams_sorted]
  simp [Values.index, String.intercalate, String.intercalate.go]

/-- ParseQuery on four encoded pairs joined by `&` decodes them in order. -/
theorem ParseQuery_authQuery (k1 v1 k2 v2 k3 v3 k4 v4 : String) :
    ParseQuery (QueryEscape k1 ++ "=" ++ QueryEscape v1 ++ "&" ++
        (QueryEscape k2 ++ "=" ++ QueryEscape v2) ++ "&" ++
        (QueryEscape k3 ++ "=" ++ QueryEscape v3) ++ "&" ++
        (QueryEscape k4 ++ "=" ++ QueryEscape v4))
      = (ByteValues.append (ByteValues.append (ByteValues.append
          (ByteValues.append [] (bytes k1) (bytes v1)) (bytes k2) (bytes v2))
          (bytes k3) (bytes v3)) (bytes k4) (bytes v4), none) := by
  have hl : (QueryEscape k1 ++ "=" ++ QueryEscape v1 ++ "&" ++
        (QueryEscape k2 ++ "=" ++ QueryEscape v2) ++ "&" ++
        (QueryEscape k3 ++ "=" ++ QueryEscape v3) ++ "&" ++
        (QueryEscape k4 ++ "=" ++ QueryEscape v4)).toList
      = ((bytes k1).flatMap escapeByte ++ '=' :: (bytes v1).flatMap escapeByte) ++ '&' ::
        (((bytes k2).flatMap escapeByte ++ '=' :: (bytes v2).flatMap escapeByte) ++ '&' ::
        (((bytes k3).flatMap escapeByte ++ '=' :: (bytes v3).flatMap escapeByte) ++ '&' ::
        ((bytes k4).flatMap escapeByte ++ '=' :: (bytes v4).flatMap escapeByte))) := by
    simp [String.toList, QueryEscape]
  unfold ParseQuery
  rw [hl, splitOn_append _ _ _ (piece_not_amp _ _ (bytes_lt k1) (bytes_lt v1)),
    splitOn_append _ _ _ (piece_not_amp _ _ (bytes_lt k2) (bytes_lt v2)),
    splitOn_append _ _ _ (piece_not_amp _ _ (bytes_lt k3) (bytes_lt v3)),
    splitOn_of_not_mem _ _ (piece_not_amp _ _ (bytes_lt k4) (bytes_lt v4))]
  simp only [List.foldl]
  rw [parsePair_escaped _ _ _ (bytes_lt k1) (bytes_lt v1),
    parsePair_escaped _ _ _ (bytes_lt k2) (bytes_lt v2),
    parsePair_escaped _ _ _ (bytes_lt k3) (bytes_lt v3),
    parsePair_escaped _ _ _ (bytes_lt k4) (bytes_lt v4)]

/-- C12: for every client id and every redirect URI, `GetAuthURL` returns
`https://accounts.spotify.com/authorize?` followed by a query string that
`url.ParseQuery` decodes without error into exactly four parameters with
one value each: `client_id` with the bytes of the client id,
`redirect_uri` with the bytes of the redirect URI, `response_type` with
`code`, and `scope` with `user-read-playback-state user-modify-playback-state`. -/
theorem GetAuthURL_query_decodes (c : Client) :
    ∃ query : String,
      c.GetAuthURL = "https://accounts.spotify.com/authorize?" ++ query ∧
      ParseQuery query
        = ([(bytes "client_id", [bytes c.ClientID]),
            (bytes "redirect_uri", [bytes c.RedirectURI]),
            (bytes "response_type", [bytes "code"]),
            (bytes "scope", [bytes "user-read-playback-state user-modify-playback-state"])],
           none) := by
  refine ⟨_, GetAuthURL_eq c, ?_⟩
  rw [ParseQuery_authQuery]
  have h12 : bytes "client_id" ≠ bytes "redirect_uri" := by decide
  have h13 : bytes "client_id" ≠ bytes "response_type" := by decide
  have h14 : bytes "client_id" ≠ bytes "scope" := by decide
  have h23 : bytes "redirect_uri" ≠ bytes "response_type" := by decide
  have h24 : bytes "redirect_uri" ≠ bytes "scope" := by decide
  have h34 : bytes "response_type" ≠ bytes "scope" := by decide
  simp only [ByteValues.append, if_neg h12, if_neg h13, if_neg h14, if_neg h23, if_neg h24,
    if_neg h34]

/-- A character is determined by its code point. -/
theorem char_eq_of_toNat_eq (c d : Char) (h : c.toNat = d.toNat) : c = d := by
  rw [← Char.ofNat_toNat c, ← Char.ofNat_toNat d, h]

/-- The encoding of a character is determined by, and determines, its first bytes. -/
theorem utf8_append_inj (c d : Char) (r1 r2 : List Nat)
    (h : utf8 c ++ r1 = utf8 d ++ r2) : c = d ∧ r1 = r2 := by
  have hc := char_toNat_lt c
  have hd := char_toNat_lt d
  unfold utf8 at h
  simp only at h
  split_ifs at h <;>
    first
    | (exfalso
       have hh := congrArg List.head? h
       simp at hh
       omega)
    | (obtain ⟨ha, hr⟩ := List.append_inj h rfl
       simp at ha
       exact ⟨char_eq_of_toNat_eq c d (by omega), hr⟩)

/-- Two strings with the same bytes are equal. -/
theorem bytes_injective (s t : String) (h : bytes s = bytes t) : s = t := by
  have key : ∀ l1 l2 : List Char, l1.flatMap utf8 = l2.flatMap utf8 → l1 = l2 := by
    intro l1
    induction l1 with
    | nil =>
      intro l2 h
      cases l2 with
      | nil => rfl
      | cons d r2 =>
        exfalso
        have hd := char_toNat_lt d
        simp only [List.flatMap_nil, List.flatMap_cons] at h
        unfold utf8 at h
        simp only at h
        split_ifs at h <;> simp at h
    | cons c r1 ih =>
      intro l2 h
      cases l2 with
      | nil =>
        exfalso
        simp only [List.flatMap_nil, List.flatMap_cons] at h
        unfold utf8 at h
        simp only at h
        split_ifs at h <;> simp at h
      | cons d r2 =>
        simp only [List.flatMap_cons] at h
        obtain ⟨h1, h2⟩ := utf8_append_inj c d _ _ h
        rw [h1, ih r2 h2]
  have := key s.toList t.toList h
  exact String.ext this
end BarcodeMusicPlayer
